import Mathlib

/-!
Verification of the tic-tac-toe game engine (`class TicTacToe` in
`src/unnamed/part_002`, the TypeScript variant; `src/tictactoe.js` and
`src/unnamed/part_000` are JavaScript renderings of the same class).

Shallow embedding notes:
* A cell holds the string `''`, `'x'` or `'o'`; we embed this as `CellVal`
  (`empty`, `mark x`, `mark o`), making other strings unrepresentable —
  the engine only ever writes `''` or a player token.
* The board is `Array<Array<string>>`; we embed it as `List (List CellVal)`.
  JavaScript indexing `a[i]` yields `undefined` out of range, embedded as
  `List.get?`.  Reading a property of `undefined` (as in `board[row][col]`
  when `board[row]` is `undefined`) throws a `TypeError`; `clickCell`
  therefore returns `Except GameState GameState`, where `Except.error s`
  means the call threw with the engine's state being `s` at the throw.
* The `display` field and all calls on it (`updateBoard`, `updateScore`,
  `printMessage`, `clearMessage`, `clearGameBoard`, …) only touch the DOM
  and never read back into engine state; they are dropped from the state.
  The `wait` field (1500 ms) only feeds `setTimeout` and is dropped too.
* `setTimeout(() => { this.resetBoard(); this.waiting = false }, this.wait)`
  in `gameOver` schedules the deferred reset; the callback body is embedded
  as `resetCallback` and `gameOver` itself as setting `waiting := true`.
-/

/-- The two player tokens `'x'` and `'o'` (`players = { x: 'x', o: 'o' }`). -/
inductive Player where
  | x
  | o
deriving DecidableEq, Repr

/-- The content of one board cell: the empty string `''` or a player token. -/
inductive CellVal where
  | empty
  | mark (p : Player)
deriving DecidableEq, Repr

/-- `board` is a 3x3 multi-dimensional array of cell values. -/
abbrev Board := List (List CellVal)

/-- `score - Holds the score for players` (`{ x: 0, o: 0 }` initially). -/
structure Score where
  x : Nat
  o : Nat
deriving DecidableEq, Repr

/-- Look a player's entry up in the score record (`this.score[player]`). -/
def Score.get (sc : Score) : Player → Nat
  | Player.x => sc.x
  | Player.o => sc.o

/-- The engine-owned mutable state of `class TicTacToe`:
`board`, `waiting`, `score`, `currentPlayer`. -/
structure GameState where
  board : Board
  waiting : Bool
  score : Score
  currentPlayer : Player
deriving DecidableEq, Repr

/-- `createBoard = () => [['', '', ''], ['', '', ''], ['', '', '']]`. -/
def createBoard : Board :=
  [[CellVal.empty, CellVal.empty, CellVal.empty],
   [CellVal.empty, CellVal.empty, CellVal.empty],
   [CellVal.empty, CellVal.empty, CellVal.empty]]

/-- The state set up by the constructor: fresh board, `waiting = false`,
`score = { x: 0, o: 0 }`, `currentPlayer = players.x`. -/
def initialState : GameState :=
  { board := createBoard
    waiting := false
    score := { x := 0, o := 0 }
    currentPlayer := Player.x }

/-- Read `board[i][j]` as a value: `none` when the cell does not exist
(JavaScript `undefined`), `some v` when it holds `v`. -/
def getCell (b : Board) (i j : Nat) : Option CellVal :=
  b[i]?.bind fun r => r[j]?

/-- The assignment `this.board[row][col] = v`.  In every executed call the
row exists and the column is in range (the guard `board[row][col] === ''`
has just succeeded), so the fall-through arms are never reached. -/
def setCell (b : Board) (i j : Nat) (v : CellVal) : Board :=
  match b[i]? with
  | some r => b.set i (r.set j v)
  | none => b

/-- One comparison `this.board[i][j] === currentPlayer` as it appears in
`isGameWon` (a missing cell compares unequal to a token). -/
def cellIs (b : Board) (i j : Nat) (p : Player) : Bool :=
  decide (getCell b i j = some (CellVal.mark p))

/-- `isGameWon = (row, col)`: the horizontal line through `row`, the
vertical line through `col`, and both diagonals, each tested against
`this.currentPlayer`. -/
def isGameWon (b : Board) (p : Player) (row col : Nat) : Bool :=
  (cellIs b row 0 p && cellIs b row 1 p && cellIs b row 2 p) ||
  (cellIs b 0 col p && cellIs b 1 col p && cellIs b 2 col p) ||
  ((cellIs b 0 0 p && cellIs b 1 1 p && cellIs b 2 2 p) ||
   (cellIs b 2 0 p && cellIs b 1 1 p && cellIs b 0 2 p))

/-- `this.board.map(row => row.filter(col => col === '')).filter(row => row.length > 0)`:
the rows of empty cells, kept only when non-empty. -/
def stalemateRows (b : Board) : List (List CellVal) :=
  (b.map fun rw => rw.filter fun c => decide (c = CellVal.empty)).filter
    fun rw => decide (rw.length > 0)

/-- `switchPlayer`: `currentPlayer === players.x ? players.o : players.x`. -/
def switchPlayer (s : GameState) : GameState :=
  { s with currentPlayer := if s.currentPlayer = Player.x then Player.o else Player.x }

/-- `increaseScore`: `this.score[this.currentPlayer] += 1`. -/
def increaseScore (s : GameState) : GameState :=
  { s with score :=
      match s.currentPlayer with
      | Player.x => { s.score with x := s.score.x + 1 }
      | Player.o => { s.score with o := s.score.o + 1 } }

/-- `gameOver = winner => { this.waiting = true; this.display.printMessage(winner);
setTimeout(..., this.wait) }`: the state effect is `waiting := true`; the
scheduled timeout body is `resetCallback` below. -/
def gameOver (s : GameState) (winner : Option Player) : GameState :=
  let _ := winner
  { s with waiting := true }

/-- `resetBoard`: clears the message and the rendered board (display only)
and reinstates `this.board = this.createBoard()`. -/
def resetBoard (s : GameState) : GameState :=
  { s with board := createBoard }

/-- The body of the timeout scheduled by `gameOver`:
`() => { this.resetBoard(); this.waiting = false }`. -/
def resetCallback (s : GameState) : GameState :=
  { resetBoard s with waiting := false }

/-- `clickCell = (row, col)` of `src/unnamed/part_002`.  The first read
`this.board[row][col]` throws when `this.board[row]` is `undefined`
(`Except.error` carries the unchanged state); otherwise, when the cell is
empty and the round is active, the cell is marked and the win, stalemate
and continue branches run in order. -/
def clickCell (s : GameState) (row col : Nat) : Except GameState GameState :=
  match s.board[row]? with
  | none => Except.error s
  | some r =>
    let canContinue := decide (r[col]? = some CellVal.empty)
    if canContinue && !s.waiting then
      let s1 : GameState := { s with board := setCell s.board row col (CellVal.mark s.currentPlayer) }
      let win := isGameWon s1.board s1.currentPlayer row col
      let stalemate := stalemateRows s1.board
      if !s1.waiting then
        if win then
          Except.ok (gameOver (increaseScore s1) (some s1.currentPlayer))
        else if stalemate.length < 1 then
          Except.ok (gameOver s1 none)
        else
          Except.ok (switchPlayer s1)
      else
        Except.ok s1
    else
      Except.ok s

/-! ## Spec-side vocabulary -/

/-- The other player (the spec's "the other player"). -/
def Player.other : Player → Player
  | Player.x => Player.o
  | Player.o => Player.x

/-- Build a 3x3 board from its nine cells, row-major. -/
def mkBoard (c00 c01 c02 c10 c11 c12 c20 c21 c22 : CellVal) : Board :=
  [[c00, c01, c02], [c10, c11, c12], [c20, c21, c22]]

/-- A board of the shape the engine maintains: exactly 3 rows of 3 cells. -/
def WFBoard (b : Board) : Prop :=
  ∃ c00 c01 c02 c10 c11 c12 c20 c21 c22,
    b = mkBoard c00 c01 c02 c10 c11 c12 c20 c21 c22

/-- The 8 winning lines of the spec: 3 rows, 3 columns, 2 diagonals. -/
def winningLines : List (List (Nat × Nat)) :=
  [[(0, 0), (0, 1), (0, 2)],
   [(1, 0), (1, 1), (1, 2)],
   [(2, 0), (2, 1), (2, 2)],
   [(0, 0), (1, 0), (2, 0)],
   [(0, 1), (1, 1), (2, 1)],
   [(0, 2), (1, 2), (2, 2)],
   [(0, 0), (1, 1), (2, 2)],
   [(2, 0), (1, 1), (0, 2)]]

/-- A line consists entirely of `p`'s marks. -/
def lineIsWin (b : Board) (p : Player) (l : List (Nat × Nat)) : Bool :=
  l.all fun c => cellIs b c.1 c.2 p

/-- At least one of the 8 winning lines consists entirely of `p`'s marks. -/
def hasWinningLine (b : Board) (p : Player) : Bool :=
  winningLines.any (lineIsWin b p)

/-- No cell of the board is empty (the spec's draw condition). -/
def noEmptyCell (b : Board) : Bool :=
  b.all fun rw => rw.all fun c => decide (c ≠ CellVal.empty)

/-- The engine state carried out of a `clickCell` call, whether it returned
normally (`ok`) or threw (`error`): the object's fields at that moment. -/
def resultState : Except GameState GameState → GameState
  | Except.ok s => s
  | Except.error s => s

/-- The number of cells of the board holding `p`'s mark. -/
def countMarks (b : Board) (p : Player) : Nat :=
  (b.map fun rw => (rw.filter fun c => decide (c = CellVal.mark p)).length).sum

/-- The states the engine can be in: the constructor's state, followed by
any sequence of returning `clickCell` calls (a throwing call leaves the
state as it was) and deferred-reset firings (the timer is armed exactly
while `waiting` holds). -/
inductive Reachable : GameState → Prop where
  | init : Reachable initialState
  | click (s s' : GameState) (row col : Nat) :
      Reachable s → clickCell s row col = Except.ok s' → Reachable s'
  | reset (s : GameState) : Reachable s → s.waiting = true → Reachable (resetCallback s)

/-! ## Claims -/

/-- **C2.** In the active phase, a click on an occupied in-range cell is a
complete no-op: `clickCell` returns with the board, scores, current player
and phase exactly as before. -/
theorem clickCell_occupied_noop (s : GameState) (hWF : WFBoard s.board)
    (hw : s.waiting = false) (row col : Nat) (hr : row < 3) (hc : col < 3)
    (q : Player) (hcell : getCell s.board row col = some (CellVal.mark q)) :
    clickCell s row col = Except.ok s := by
  obtain ⟨c00, c01, c02, c10, c11, c12, c20, c21, c22, hb⟩ := hWF
  interval_cases row <;> interval_cases col <;>
    · rw [hb] at hcell
      have hc2 := Option.some.inj hcell
      subst hc2
      unfold clickCell
      rw [hb, hw]
      rfl

/-- **C2 witness.** -/
theorem clickCell_occupied_noop_witness :
    clickCell ⟨mkBoard (CellVal.mark Player.x) CellVal.empty CellVal.empty CellVal.empty CellVal.empty CellVal.empty CellVal.empty CellVal.empty CellVal.empty, false, ⟨0, 0⟩, Player.o⟩ 0 0 =
      Except.ok ⟨mkBoard (CellVal.mark Player.x) CellVal.empty CellVal.empty CellVal.empty CellVal.empty CellVal.empty CellVal.empty CellVal.empty CellVal.empty, false, ⟨0, 0⟩, Player.o⟩ :=
  clickCell_occupied_noop _
    ⟨_, _, _, _, _, _, _, _, _, rfl⟩ rfl 0 0 (by decide) (by decide) Player.x rfl

/-- **C5.** From any awaiting-reset state, the deferred reset callback
produces a fresh empty board (all 9 cells empty) and an active phase. -/
theorem resetCallback_clears (s : GameState) (hw : s.waiting = true) :
    (resetCallback s).board = createBoard ∧
    (∀ i j, i < 3 → j < 3 → getCell (resetCallback s).board i j = some CellVal.empty) ∧
    (resetCallback s).waiting = false := by
  refine ⟨rfl, ?_, rfl⟩
  intro i j hi hj
  interval_cases i <;> interval_cases j <;> rfl

/-- **C5 witness.** -/
theorem resetCallback_clears_witness :
    (resetCallback { initialState with waiting := true }).board = createBoard ∧
    (∀ i j, i < 3 → j < 3 →
      getCell (resetCallback { initialState with waiting := true }).board i j =
        some CellVal.empty) ∧
    (resetCallback { initialState with waiting := true }).waiting = false :=
  resetCallback_clears _ rfl

/-- **C7.** During the awaiting-reset phase every click leaves the engine
state (board, scores, current player — and the phase) unchanged, whether
the call returns normally or throws on a malformed row index. -/
theorem clickCell_waiting_noop (s : GameState) (hw : s.waiting = true)
    (row col : Nat) :
    resultState (clickCell s row col) = s := by
  unfold clickCell
  cases h : s.board[row]? with
  | none => rfl
  | some r => simp [hw, resultState]

/-- **C7 witness.** -/
theorem clickCell_waiting_noop_witness :
    resultState (clickCell { initialState with waiting := true } 1 1) =
      { initialState with waiting := true } :=
  clickCell_waiting_noop _ rfl 1 1

/-- **C8.** The deferred reset callback touches only the board and the
phase: the current player and both players' scores survive it unchanged. -/
theorem resetCallback_frame (s : GameState) :
    (resetCallback s).currentPlayer = s.currentPlayer ∧
    (resetCallback s).score = s.score :=
  ⟨rfl, rfl⟩

/-- **C6 counterexample.**  Contrary to the claim, the out-of-bounds error
branch of `clickCell` is reachable: clicking row 3 makes
`this.board[3][0]` read a property of `undefined`, which throws. -/
theorem clickCell_out_of_range_cex :
    clickCell initialState 3 0 = Except.error initialState :=
  rfl

/-- **C6 amended.**  For an out-of-range column (with an in-range row),
`clickCell` raises no error and is a no-op; for an out-of-range row it
raises a TypeError from the board indexing — the state is still unchanged,
but the call is not error-free. -/
theorem clickCell_out_of_range (s : GameState) (hWF : WFBoard s.board)
    (row col : Nat) :
    (row < 3 → 3 ≤ col → clickCell s row col = Except.ok s) ∧
    (3 ≤ row → clickCell s row col = Except.error s) := by
  obtain ⟨c00, c01, c02, c10, c11, c12, c20, c21, c22, hb⟩ := hWF
  constructor
  · intro hr hc
    unfold clickCell
    rw [hb]
    have h0 : ∀ a b c : CellVal, ([a, b, c] : List CellVal)[col]? = none := by
      intro a b c
      exact List.getElem?_eq_none (by simpa using hc)
    interval_cases row <;> simp [mkBoard, h0]
  · intro hr
    unfold clickCell
    rw [hb]
    have h0 : (mkBoard c00 c01 c02 c10 c11 c12 c20 c21 c22)[row]? = none :=
      List.getElem?_eq_none (by simpa [mkBoard] using hr)
    rw [h0]

/-- **C6 amended, witness.** -/
theorem clickCell_out_of_range_witness :
    clickCell initialState 0 3 = Except.ok initialState ∧
    clickCell initialState 3 1 = Except.error initialState :=
  ⟨(clickCell_out_of_range initialState ⟨_, _, _, _, _, _, _, _, _, rfl⟩ 0 3).1
      (by decide) (by decide),
   (clickCell_out_of_range initialState ⟨_, _, _, _, _, _, _, _, _, rfl⟩ 3 1).2
      (by decide)⟩

/-! Reduction lemmas for cell reads and writes on a 3x3 board literal. -/

theorem getCell_mk_00 (c00 c01 c02 c10 c11 c12 c20 c21 c22 : CellVal) :
    getCell (mkBoard c00 c01 c02 c10 c11 c12 c20 c21 c22) 0 0 = some c00 := rfl

theorem getCell_mk_01 (c00 c01 c02 c10 c11 c12 c20 c21 c22 : CellVal) :
    getCell (mkBoard c00 c01 c02 c10 c11 c12 c20 c21 c22) 0 1 = some c01 := rfl

theorem getCell_mk_02 (c00 c01 c02 c10 c11 c12 c20 c21 c22 : CellVal) :
    getCell (mkBoard c00 c01 c02 c10 c11 c12 c20 c21 c22) 0 2 = some c02 := rfl

theorem getCell_mk_10 (c00 c01 c02 c10 c11 c12 c20 c21 c22 : CellVal) :
    getCell (mkBoard c00 c01 c02 c10 c11 c12 c20 c21 c22) 1 0 = some c10 := rfl

theorem getCell_mk_11 (c00 c01 c02 c10 c11 c12 c20 c21 c22 : CellVal) :
    getCell (mkBoard c00 c01 c02 c10 c11 c12 c20 c21 c22) 1 1 = some c11 := rfl

theorem getCell_mk_12 (c00 c01 c02 c10 c11 c12 c20 c21 c22 : CellVal) :
    getCell (mkBoard c00 c01 c02 c10 c11 c12 c20 c21 c22) 1 2 = some c12 := rfl

theorem getCell_mk_20 (c00 c01 c02 c10 c11 c12 c20 c21 c22 : CellVal) :
    getCell (mkBoard c00 c01 c02 c10 c11 c12 c20 c21 c22) 2 0 = some c20 := rfl

theorem getCell_mk_21 (c00 c01 c02 c10 c11 c12 c20 c21 c22 : CellVal) :
    getCell (mkBoard c00 c01 c02 c10 c11 c12 c20 c21 c22) 2 1 = some c21 := rfl

theorem getCell_mk_22 (c00 c01 c02 c10 c11 c12 c20 c21 c22 : CellVal) :
    getCell (mkBoard c00 c01 c02 c10 c11 c12 c20 c21 c22) 2 2 = some c22 := rfl

theorem setCell_mk_00 (c00 c01 c02 c10 c11 c12 c20 c21 c22 v : CellVal) :
    setCell (mkBoard c00 c01 c02 c10 c11 c12 c20 c21 c22) 0 0 v = mkBoard v c01 c02 c10 c11 c12 c20 c21 c22 := rfl

theorem setCell_mk_01 (c00 c01 c02 c10 c11 c12 c20 c21 c22 v : CellVal) :
    setCell (mkBoard c00 c01 c02 c10 c11 c12 c20 c21 c22) 0 1 v = mkBoard c00 v c02 c10 c11 c12 c20 c21 c22 := rfl

theorem setCell_mk_02 (c00 c01 c02 c10 c11 c12 c20 c21 c22 v : CellVal) :
    setCell (mkBoard c00 c01 c02 c10 c11 c12 c20 c21 c22) 0 2 v = mkBoard c00 c01 v c10 c11 c12 c20 c21 c22 := rfl

theorem setCell_mk_10 (c00 c01 c02 c10 c11 c12 c20 c21 c22 v : CellVal) :
    setCell (mkBoard c00 c01 c02 c10 c11 c12 c20 c21 c22) 1 0 v = mkBoard c00 c01 c02 v c11 c12 c20 c21 c22 := rfl

theorem setCell_mk_11 (c00 c01 c02 c10 c11 c12 c20 c21 c22 v : CellVal) :
    setCell (mkBoard c00 c01 c02 c10 c11 c12 c20 c21 c22) 1 1 v = mkBoard c00 c01 c02 c10 v c12 c20 c21 c22 := rfl

theorem setCell_mk_12 (c00 c01 c02 c10 c11 c12 c20 c21 c22 v : CellVal) :
    setCell (mkBoard c00 c01 c02 c10 c11 c12 c20 c21 c22) 1 2 v = mkBoard c00 c01 c02 c10 c11 v c20 c21 c22 := rfl

theorem setCell_mk_20 (c00 c01 c02 c10 c11 c12 c20 c21 c22 v : CellVal) :
    setCell (mkBoard c00 c01 c02 c10 c11 c12 c20 c21 c22) 2 0 v = mkBoard c00 c01 c02 c10 c11 c12 v c21 c22 := rfl

theorem setCell_mk_21 (c00 c01 c02 c10 c11 c12 c20 c21 c22 v : CellVal) :
    setCell (mkBoard c00 c01 c02 c10 c11 c12 c20 c21 c22) 2 1 v = mkBoard c00 c01 c02 c10 c11 c12 c20 v c22 := rfl

theorem setCell_mk_22 (c00 c01 c02 c10 c11 c12 c20 c21 c22 v : CellVal) :
    setCell (mkBoard c00 c01 c02 c10 c11 c12 c20 c21 c22) 2 2 v = mkBoard c00 c01 c02 c10 c11 c12 c20 c21 v := rfl

/-- Writing cell `(r, c)` leaves every other cell unchanged. -/
theorem getCell_setCell_ne (b : Board) (r c i j : Nat) (v : CellVal)
    (h : (i, j) ≠ (r, c)) :
    getCell (setCell b r c v) i j = getCell b i j := by
  unfold setCell
  cases hbr : b[r]? with
  | none => rfl
  | some rr =>
    rcases eq_or_ne i r with rfl | hir
    · have hjc : j ≠ c := fun hj => h (by rw [hj])
      have hlen : i < b.length := by
        by_contra hh
        rw [List.getElem?_eq_none (Nat.le_of_not_lt hh)] at hbr
        cases hbr
      unfold getCell
      rw [List.getElem?_set_self hlen, hbr]
      exact List.getElem?_set_ne (Ne.symm hjc)
    · unfold getCell
      rw [List.getElem?_set_ne (Ne.symm hir)]

/-- `isGameWon`'s individual cell test is unaffected by a write elsewhere. -/
theorem cellIs_setCell_ne (b : Board) (r c i j : Nat) (v : CellVal) (p : Player)
    (h : (i, j) ≠ (r, c)) :
    cellIs (setCell b r c v) i j p = cellIs b i j p := by
  unfold cellIs
  rw [getCell_setCell_ne b r c i j v h]

/-- A line that avoids the written cell is a win before the write iff after. -/
theorem lineIsWin_setCell_not_mem (b : Board) (p : Player) (r c : Nat)
    (v : CellVal) (l : List (Nat × Nat)) (h : (r, c) ∉ l) :
    lineIsWin (setCell b r c v) p l = lineIsWin b p l := by
  induction l with
  | nil => rfl
  | cons hd tl ih =>
    obtain ⟨i, j⟩ := hd
    simp only [List.mem_cons, not_or] at h
    unfold lineIsWin at ih ⊢
    simp only [List.all_cons]
    rw [ih h.2, cellIs_setCell_ne b r c i j v p fun he => h.1 (by rw [← he])]

/-- A winning line through the activated cell is detected by `isGameWon`. -/
theorem winning_line_detected (b : Board) (p : Player) (row col : Nat)
    (l : List (Nat × Nat)) (hl : l ∈ winningLines) (hmem : (row, col) ∈ l)
    (hline : lineIsWin b p l = true) :
    isGameWon b p row col = true := by
  simp only [winningLines, List.mem_cons, List.not_mem_nil, or_false] at hl
  rcases hl with rfl | rfl | rfl | rfl | rfl | rfl | rfl | rfl <;>
    · simp only [lineIsWin, List.all_cons, List.all_nil, Bool.and_true,
        Bool.and_eq_true] at hline
      simp only [List.mem_cons, List.not_mem_nil, or_false, Prod.mk.injEq] at hmem
      rcases hmem with ⟨rfl, rfl⟩ | ⟨rfl, rfl⟩ | ⟨rfl, rfl⟩ <;>
        simp [isGameWon, hline.1, hline.2.1, hline.2.2]

/-- Whenever `isGameWon` reports a win at in-range coordinates, one of the
8 winning lines is entirely the player's. -/
theorem detected_has_line (b : Board) (p : Player) (row col : Nat)
    (hr : row < 3) (hc : col < 3) (h : isGameWon b p row col = true) :
    hasWinningLine b p = true := by
  simp only [isGameWon, Bool.or_eq_true, Bool.and_eq_true] at h
  simp only [hasWinningLine, List.any_eq_true]
  rcases h with (⟨⟨h1, h2⟩, h3⟩ | ⟨⟨h1, h2⟩, h3⟩) | ⟨⟨h1, h2⟩, h3⟩ | ⟨⟨h1, h2⟩, h3⟩
  · interval_cases row
    · exact ⟨[(0, 0), (0, 1), (0, 2)], by decide, by simp [lineIsWin, h1, h2, h3]⟩
    · exact ⟨[(1, 0), (1, 1), (1, 2)], by decide, by simp [lineIsWin, h1, h2, h3]⟩
    · exact ⟨[(2, 0), (2, 1), (2, 2)], by decide, by simp [lineIsWin, h1, h2, h3]⟩
  · interval_cases col
    · exact ⟨[(0, 0), (1, 0), (2, 0)], by decide, by simp [lineIsWin, h1, h2, h3]⟩
    · exact ⟨[(0, 1), (1, 1), (2, 1)], by decide, by simp [lineIsWin, h1, h2, h3]⟩
    · exact ⟨[(0, 2), (1, 2), (2, 2)], by decide, by simp [lineIsWin, h1, h2, h3]⟩
  · exact ⟨[(0, 0), (1, 1), (2, 2)], by decide, by simp [lineIsWin, h1, h2, h3]⟩
  · exact ⟨[(2, 0), (1, 1), (0, 2)], by decide, by simp [lineIsWin, h1, h2, h3]⟩

/-- **C1.**  For every board, player `p` and in-range activated cell
holding `p`'s mark such that no line was entirely `p`'s before that mark
was placed (the board with the activated cell put back to empty has no
winning line), `isGameWon(row, col)` returns true iff one of the 8 winning
lines consists entirely of `p`'s marks; and any of the 8 winning lines
that is filled with `p`'s marks and contains the activated cell (however
the line was filled) is detected as a win. -/
theorem isGameWon_iff_winning_line :
    (∀ (b : Board) (p : Player) (row col : Nat), row < 3 → col < 3 →
        getCell b row col = some (CellVal.mark p) →
        hasWinningLine (setCell b row col CellVal.empty) p = false →
        (isGameWon b p row col = true ↔ hasWinningLine b p = true)) ∧
    (∀ (b : Board) (p : Player) (row col : Nat) (l : List (Nat × Nat)),
        l ∈ winningLines → (row, col) ∈ l → lineIsWin b p l = true →
        isGameWon b p row col = true) := by
  constructor
  · intro b p row col hr hc _hcell hprev
    constructor
    · exact fun h => detected_has_line b p row col hr hc h
    · intro h
      simp only [hasWinningLine, List.any_eq_true] at h
      obtain ⟨l, hl, hline⟩ := h
      by_cases hmem : (row, col) ∈ l
      · exact winning_line_detected b p row col l hl hmem hline
      · exfalso
        simp only [hasWinningLine, List.any_eq_false] at hprev
        exact hprev l hl (by rw [lineIsWin_setCell_not_mem b p row col CellVal.empty l hmem, hline])
  · exact fun b p row col l hl hmem hline => winning_line_detected b p row col l hl hmem hline

/-- **C1 witness.** -/
theorem isGameWon_iff_winning_line_witness :
    (isGameWon (mkBoard (CellVal.mark Player.x) (CellVal.mark Player.x) (CellVal.mark Player.x) (CellVal.mark Player.o) (CellVal.mark Player.o) CellVal.empty CellVal.empty CellVal.empty CellVal.empty) Player.x 0 2 = true ↔
      hasWinningLine (mkBoard (CellVal.mark Player.x) (CellVal.mark Player.x) (CellVal.mark Player.x) (CellVal.mark Player.o) (CellVal.mark Player.o) CellVal.empty CellVal.empty CellVal.empty CellVal.empty) Player.x = true) ∧
    isGameWon (mkBoard (CellVal.mark Player.x) (CellVal.mark Player.x) (CellVal.mark Player.x) (CellVal.mark Player.o) (CellVal.mark Player.o) CellVal.empty CellVal.empty CellVal.empty CellVal.empty) Player.x 0 2 = true :=
  ⟨isGameWon_iff_winning_line.1 _ Player.x 0 2 (by decide) (by decide) rfl (by decide),
   isGameWon_iff_winning_line.2 _ Player.x 0 2 [(0, 0), (0, 1), (0, 2)]
     (by decide) (by decide) (by decide)⟩

/-- The code's stalemate test (`stalemate.length < 1`) holds exactly when
no cell of the board is empty. -/
theorem stalemate_iff_noEmptyCell (b : Board) :
    (stalemateRows b).length < 1 ↔ noEmptyCell b = true := by
  simp [stalemateRows, noEmptyCell, Nat.lt_one_iff, List.length_eq_zero,
    List.filter_eq_nil_iff, List.all_eq_true]

/-- `clickCell` on an empty cell of an active round: the cell is marked and
the win / stalemate / continue branches run in order. -/
theorem clickCell_empty_step (s : GameState) (hw : s.waiting = false)
    (row col : Nat) (r : List CellVal) (hrow : s.board[row]? = some r)
    (hcol : r[col]? = some CellVal.empty) :
    clickCell s row col = Except.ok (
      if isGameWon (setCell s.board row col (CellVal.mark s.currentPlayer)) s.currentPlayer row col then
        gameOver (increaseScore { s with board := setCell s.board row col (CellVal.mark s.currentPlayer) }) (some s.currentPlayer)
      else if (stalemateRows (setCell s.board row col (CellVal.mark s.currentPlayer))).length < 1 then
        gameOver { s with board := setCell s.board row col (CellVal.mark s.currentPlayer) } none
      else
        switchPlayer { s with board := setCell s.board row col (CellVal.mark s.currentPlayer) }) := by
  unfold clickCell
  rw [hrow]
  simp [hcol, hw]
  rw [apply_ite Except.ok, apply_ite Except.ok]

/-- `increaseScore` always changes the score record. -/
theorem increaseScore_score_ne (s : GameState) :
    (increaseScore s).score ≠ s.score := by
  intro h
  have hx := congrArg Score.x h
  have ho := congrArg Score.o h
  cases hp : s.currentPlayer <;> simp [increaseScore, hp] at hx ho

/-- `increaseScore` adds exactly one to the current player's entry. -/
theorem increaseScore_get_self (s : GameState) :
    (increaseScore s).score.get s.currentPlayer = s.score.get s.currentPlayer + 1 := by
  cases hp : s.currentPlayer <;> simp [increaseScore, Score.get, hp]

/-- `increaseScore` leaves the other player's entry unchanged. -/
theorem increaseScore_get_other (s : GameState) :
    (increaseScore s).score.get s.currentPlayer.other =
      s.score.get s.currentPlayer.other := by
  cases hp : s.currentPlayer <;> simp [increaseScore, Score.get, Player.other, hp]

/-- **C3.**  When the current player marks a previously empty cell in an
active round, the round ends as a draw (phase becomes awaiting-reset with
both scores unchanged) iff no cell of the resulting board is empty and the
move did not complete a winning line; and a move that completes a line is
classified as a win (score changes) even if it fills the ninth cell, the
win check running before the draw check. -/
theorem clickCell_draw_characterization (s : GameState) (hw : s.waiting = false)
    (row col : Nat) (hcell : getCell s.board row col = some CellVal.empty) :
    ∃ s', clickCell s row col = Except.ok s' ∧
      ((s'.waiting = true ∧ s'.score = s.score) ↔
        (noEmptyCell (setCell s.board row col (CellVal.mark s.currentPlayer)) = true ∧
         isGameWon (setCell s.board row col (CellVal.mark s.currentPlayer)) s.currentPlayer row col = false)) ∧
      (isGameWon (setCell s.board row col (CellVal.mark s.currentPlayer)) s.currentPlayer row col = true →
        s'.waiting = true ∧ s'.score ≠ s.score) := by
  obtain ⟨r, hrow, hcol⟩ := Option.bind_eq_some.mp hcell
  refine ⟨_, clickCell_empty_step s hw row col r hrow hcol, ?_, ?_⟩
  · by_cases hwin : isGameWon (setCell s.board row col (CellVal.mark s.currentPlayer)) s.currentPlayer row col = true
    · rw [if_pos hwin]
      simp only [gameOver]
      constructor
      · rintro ⟨-, hsc⟩
        exact absurd hsc (increaseScore_score_ne _)
      · rintro ⟨-, hwin2⟩
        rw [hwin] at hwin2
        simp at hwin2
    · rw [if_neg hwin]
      rw [Bool.not_eq_true] at hwin
      by_cases hfull : (stalemateRows (setCell s.board row col (CellVal.mark s.currentPlayer))).length < 1
      · rw [if_pos hfull]
        simp [gameOver, (stalemate_iff_noEmptyCell _).mp hfull, hwin]
      · rw [if_neg hfull]
        simp only [switchPlayer]
        constructor
        · rintro ⟨hwt, -⟩
          exact absurd hwt (by simp [hw])
        · rintro ⟨hfull2, -⟩
          exact absurd ((stalemate_iff_noEmptyCell _).mpr hfull2) hfull
  · intro hwin
    rw [if_pos hwin]
    exact ⟨rfl, increaseScore_score_ne _⟩

/-- **C3 witness** (a board one move away from a drawn full board). -/
theorem clickCell_draw_characterization_witness :
    ∃ s', clickCell ⟨mkBoard (CellVal.mark Player.x) (CellVal.mark Player.o) (CellVal.mark Player.x) (CellVal.mark Player.x) (CellVal.mark Player.o) (CellVal.mark Player.o) (CellVal.mark Player.o) (CellVal.mark Player.x) CellVal.empty, false, ⟨1, 2⟩, Player.x⟩ 2 2 = Except.ok s' ∧
      ((s'.waiting = true ∧ s'.score = Score.mk 1 2) ↔
        (noEmptyCell (setCell (mkBoard (CellVal.mark Player.x) (CellVal.mark Player.o) (CellVal.mark Player.x) (CellVal.mark Player.x) (CellVal.mark Player.o) (CellVal.mark Player.o) (CellVal.mark Player.o) (CellVal.mark Player.x) CellVal.empty) 2 2 (CellVal.mark Player.x)) = true ∧
         isGameWon (setCell (mkBoard (CellVal.mark Player.x) (CellVal.mark Player.o) (CellVal.mark Player.x) (CellVal.mark Player.x) (CellVal.mark Player.o) (CellVal.mark Player.o) (CellVal.mark Player.o) (CellVal.mark Player.x) CellVal.empty) 2 2 (CellVal.mark Player.x)) Player.x 2 2 = false)) ∧
      (isGameWon (setCell (mkBoard (CellVal.mark Player.x) (CellVal.mark Player.o) (CellVal.mark Player.x) (CellVal.mark Player.x) (CellVal.mark Player.o) (CellVal.mark Player.o) (CellVal.mark Player.o) (CellVal.mark Player.x) CellVal.empty) 2 2 (CellVal.mark Player.x)) Player.x 2 2 = true →
        s'.waiting = true ∧ s'.score ≠ Score.mk 1 2) :=
  clickCell_draw_characterization _ rfl 2 2 rfl

/-- **C4.**  A move on an empty cell of an active round that completes a
winning line for the current player `p` increments `score[p]` by exactly
one, leaves the other player's score unchanged, and moves the round to the
awaiting-reset phase. -/
theorem clickCell_win_score (s : GameState) (hw : s.waiting = false)
    (row col : Nat) (hcell : getCell s.board row col = some CellVal.empty)
    (hwin : isGameWon (setCell s.board row col (CellVal.mark s.currentPlayer)) s.currentPlayer row col = true) :
    ∃ s', clickCell s row col = Except.ok s' ∧
      s'.score.get s.currentPlayer = s.score.get s.currentPlayer + 1 ∧
      s'.score.get s.currentPlayer.other = s.score.get s.currentPlayer.other ∧
      s'.waiting = true := by
  obtain ⟨r, hrow, hcol⟩ := Option.bind_eq_some.mp hcell
  refine ⟨_, clickCell_empty_step s hw row col r hrow hcol, ?_⟩
  rw [if_pos hwin]
  exact ⟨increaseScore_get_self _, increaseScore_get_other _, rfl⟩

/-- **C4 witness** (x completes the top row). -/
theorem clickCell_win_score_witness :
    ∃ s', clickCell ⟨mkBoard (CellVal.mark Player.x) (CellVal.mark Player.x) CellVal.empty (CellVal.mark Player.o) (CellVal.mark Player.o) CellVal.empty CellVal.empty CellVal.empty CellVal.empty, false, ⟨0, 0⟩, Player.x⟩ 0 2 = Except.ok s' ∧
      s'.score.get Player.x = (Score.mk 0 0).get Player.x + 1 ∧
      s'.score.get Player.x.other = (Score.mk 0 0).get Player.x.other ∧
      s'.waiting = true :=
  clickCell_win_score _ rfl 0 2 rfl (by decide)

/-- A board is well-formed iff it has 3 rows, each of 3 cells. -/
theorem WFBoard_iff (b : Board) :
    WFBoard b ↔ b.length = 3 ∧ ∀ r ∈ b, r.length = 3 := by
  constructor
  · rintro ⟨c00, c01, c02, c10, c11, c12, c20, c21, c22, rfl⟩
    refine ⟨rfl, ?_⟩
    intro r hr
    simp only [mkBoard, List.mem_cons, List.not_mem_nil, or_false] at hr
    rcases hr with rfl | rfl | rfl <;> rfl
  · rintro ⟨hlen, hrows⟩
    rw [List.length_eq_three] at hlen
    obtain ⟨r0, r1, r2, rfl⟩ := hlen
    have h0 := hrows r0 (by simp)
    have h1 := hrows r1 (by simp)
    have h2 := hrows r2 (by simp)
    rw [List.length_eq_three] at h0 h1 h2
    obtain ⟨a0, a1, a2, rfl⟩ := h0
    obtain ⟨b0, b1, b2, rfl⟩ := h1
    obtain ⟨d0, d1, d2, rfl⟩ := h2
    exact ⟨a0, a1, a2, b0, b1, b2, d0, d1, d2, rfl⟩

/-- Writing a cell never changes the board's 3x3 shape. -/
theorem WFBoard_setCell (b : Board) (hWF : WFBoard b) (i j : Nat) (v : CellVal) :
    WFBoard (setCell b i j v) := by
  rw [WFBoard_iff] at hWF ⊢
  unfold setCell
  cases hbr : b[i]? with
  | none => exact hWF
  | some r =>
    refine ⟨by simp [hWF.1], ?_⟩
    intro rr hrr
    rcases List.mem_or_eq_of_mem_set hrr with hmem | rfl
    · exact hWF.2 rr hmem
    · rw [List.length_set]
      exact hWF.2 r (List.getElem?_mem hbr)

/-- **C9.**  During a round, `clickCell` preserves the board invariant:
the board stays exactly 3x3, and a cell already holding a player's mark
still holds that very mark afterwards (it is never overwritten and never
emptied — only the deferred reset returns cells to empty), whether the
call returns normally or throws. -/
theorem clickCell_preserves_marks (s : GameState) (hWF : WFBoard s.board)
    (row col i j : Nat) (q : Player)
    (hij : getCell s.board i j = some (CellVal.mark q)) :
    WFBoard (resultState (clickCell s row col)).board ∧
    getCell (resultState (clickCell s row col)).board i j =
      some (CellVal.mark q) := by
  unfold clickCell
  cases hrow : s.board[row]? with
  | none => exact ⟨hWF, hij⟩
  | some r =>
    dsimp only
    by_cases hcond : (decide (r[col]? = some CellVal.empty) && !s.waiting) = true
    · rw [if_pos hcond]
      have hcol : r[col]? = some CellVal.empty := by
        have h := hcond
        simp only [Bool.and_eq_true, decide_eq_true_eq] at h
        exact h.1
      have hne : (i, j) ≠ (row, col) := by
        intro he
        have h1 : i = row := congrArg Prod.fst he
        have h2 : j = col := congrArg Prod.snd he
        subst h1; subst h2
        have hempty : getCell s.board i j = some CellVal.empty := by
          unfold getCell
          rw [hrow]
          exact hcol
        rw [hij] at hempty
        cases Option.some.inj hempty
      have hWF1 : WFBoard (setCell s.board row col (CellVal.mark s.currentPlayer)) :=
        WFBoard_setCell s.board hWF row col (CellVal.mark s.currentPlayer)
      have hget1 : getCell (setCell s.board row col (CellVal.mark s.currentPlayer)) i j =
          some (CellVal.mark q) := by
        rw [getCell_setCell_ne s.board row col i j (CellVal.mark s.currentPlayer) hne]
        exact hij
      split
      · split
        · exact ⟨hWF1, hget1⟩
        · split
          · exact ⟨hWF1, hget1⟩
          · exact ⟨hWF1, hget1⟩
      · exact ⟨hWF1, hget1⟩
    · rw [if_neg hcond]
      exact ⟨hWF, hij⟩

/-- **C9 witness.** -/
theorem clickCell_preserves_marks_witness :
    WFBoard (resultState (clickCell ⟨mkBoard (CellVal.mark Player.x) CellVal.empty CellVal.empty CellVal.empty CellVal.empty CellVal.empty CellVal.empty CellVal.empty CellVal.empty, false, ⟨0, 0⟩, Player.o⟩ 1 1)).board ∧
    getCell (resultState (clickCell ⟨mkBoard (CellVal.mark Player.x) CellVal.empty CellVal.empty CellVal.empty CellVal.empty CellVal.empty CellVal.empty CellVal.empty CellVal.empty, false, ⟨0, 0⟩, Player.o⟩ 1 1)).board 0 0 =
      some (CellVal.mark Player.x) :=
  clickCell_preserves_marks _ ⟨_, _, _, _, _, _, _, _, _, rfl⟩ 1 1 0 0 Player.x rfl

/-- Replacing a list entry on which `f` is false adjusts the filtered
length by whether `f` holds of the new value. -/
theorem length_filter_set (f : CellVal → Bool) (v : CellVal) :
    ∀ (l : List CellVal) (j : Nat) (a : CellVal), l[j]? = some a → f a = false →
      ((l.set j v).filter f).length =
        (l.filter f).length + (if f v then 1 else 0) := by
  intro l
  induction l with
  | nil =>
    intro j a hj _
    simp at hj
  | cons hd tl ih =>
    intro j a hj ha
    cases j with
    | zero =>
      have hhd : hd = a := by simpa using hj
      subst hhd
      cases hfv : f v <;> simp [List.filter_cons, hfv, ha]
    | succ n =>
      have hj' : tl[n]? = some a := by simpa using hj
      cases hfh : f hd <;>
        simp [List.filter_cons, hfh, ih n a hj' ha] <;> omega

/-- Replacing one whole row trades its mark count for the new row's. -/
theorem countMarks_set_row (b : Board) :
    ∀ (row : Nat) (r r' : List CellVal) (p : Player), b[row]? = some r →
      countMarks (b.set row r') p +
          (r.filter fun c => decide (c = CellVal.mark p)).length =
        countMarks b p +
          (r'.filter fun c => decide (c = CellVal.mark p)).length := by
  induction b with
  | nil =>
    intro row r r' p h
    simp at h
  | cons hd tl ih =>
    intro row r r' p h
    cases row with
    | zero =>
      have hhd : hd = r := by simpa using h
      subst hhd
      simp [countMarks]
      omega
    | succ n =>
      have h' : tl[n]? = some r := by simpa using h
      have hih := ih n r r' p h'
      simp [countMarks] at hih ⊢
      omega

/-- Marking a previously empty cell adds one to the mover's count when the
written token is the counted player's, and nothing otherwise. -/
theorem countMarks_setCell (b : Board) (row col : Nat) (r : List CellVal)
    (p : Player) (v : CellVal) (hrow : b[row]? = some r)
    (hcol : r[col]? = some CellVal.empty) :
    countMarks (setCell b row col v) p =
      countMarks b p + (if v = CellVal.mark p then 1 else 0) := by
  have h1 := countMarks_set_row b row r (r.set col v) p hrow
  have h2 := length_filter_set (fun c => decide (c = CellVal.mark p)) v r col
    CellVal.empty hcol (by simp)
  have hset : setCell b row col v = b.set row (r.set col v) := by
    unfold setCell
    rw [hrow]
  rw [hset]
  by_cases hv : v = CellVal.mark p <;> simp [hv] at h1 h2 ⊢ <;> omega

/-- A fresh board holds no marks. -/
theorem countMarks_createBoard (p : Player) : countMarks createBoard p = 0 := by
  cases p <;> rfl

/-- The two players are distinct. -/
theorem Player.other_other (p : Player) : p.other.other = p := by
  cases p <;> rfl

/-- The ternary in `switchPlayer` computes exactly "the other player". -/
theorem switchPlayer_eq_other (s : GameState) :
    (if s.currentPlayer = Player.x then Player.o else Player.x) =
      s.currentPlayer.other := by
  cases s.currentPlayer <;> simp [Player.other]

/-- The alternation invariant: while the round is active the player to
move has at most as many marks as the opponent (and at most one fewer);
while awaiting reset the player who just moved has at least as many (and
at most one more). -/
theorem reachable_inv (s : GameState) (h : Reachable s) :
    (s.waiting = false →
      countMarks s.board s.currentPlayer ≤
          countMarks s.board s.currentPlayer.other ∧
      countMarks s.board s.currentPlayer.other ≤
          countMarks s.board s.currentPlayer + 1) ∧
    (s.waiting = true →
      countMarks s.board s.currentPlayer.other ≤
          countMarks s.board s.currentPlayer ∧
      countMarks s.board s.currentPlayer ≤
          countMarks s.board s.currentPlayer.other + 1) := by
  induction h with
  | init => exact ⟨fun _ => by decide, fun hh => nomatch hh⟩
  | reset s hr hw ih =>
    refine ⟨fun _ => ?_, fun hh => nomatch hh⟩
    dsimp only [resetCallback, resetBoard]
    rw [countMarks_createBoard, countMarks_createBoard]
    omega
  | click s s' row col hr hstep ih =>
    unfold clickCell at hstep
    rcases hrowE : s.board[row]? with _ | r
    · rw [hrowE] at hstep
      cases hstep
    · rw [hrowE] at hstep
      dsimp only at hstep
      cases hwB : s.waiting
      · rw [hwB] at hstep
        simp only [Bool.not_false, Bool.and_true] at hstep
        by_cases hcol : r[col]? = some CellVal.empty
        · rw [if_pos (decide_eq_true hcol)] at hstep
          obtain ⟨hia1, hia2⟩ := ih.1 hwB
          have hc_self := countMarks_setCell s.board row col r s.currentPlayer
            (CellVal.mark s.currentPlayer) hrowE hcol
          rw [if_pos rfl] at hc_self
          have hne : CellVal.mark s.currentPlayer ≠
              CellVal.mark s.currentPlayer.other := by
            cases s.currentPlayer <;> simp [Player.other]
          have hc_other := countMarks_setCell s.board row col r
            s.currentPlayer.other (CellVal.mark s.currentPlayer) hrowE hcol
          rw [if_neg hne] at hc_other
          simp only [if_true] at hstep
          split at hstep
          · injection hstep with hstep
            subst hstep
            refine ⟨(fun hh => nomatch hh), fun _ => ?_⟩
            dsimp only [gameOver, increaseScore]
            rw [hc_self, hc_other]
            omega
          · split at hstep
            · injection hstep with hstep
              subst hstep
              refine ⟨(fun hh => nomatch hh), fun _ => ?_⟩
              dsimp only [gameOver]
              rw [hc_self, hc_other]
              omega
            · injection hstep with hstep
              subst hstep
              refine ⟨fun _ => ?_, fun hh => nomatch hh⟩
              dsimp only [switchPlayer]
              rw [switchPlayer_eq_other s, Player.other_other]
              rw [hc_self, hc_other]
              omega
        · rw [if_neg (by simp [hcol])] at hstep
          injection hstep with hstep
          subst hstep
          exact ih
      · rw [hwB] at hstep
        simp only [Bool.not_true, Bool.and_false] at hstep
        simp only [Bool.false_eq_true, if_false] at hstep
        injection hstep with hstep
        subst hstep
        exact ih

/-- **C10.**  In every state reachable from the constructor's state by
clicks and deferred resets, the numbers of `x` and `o` marks on the board
differ by at most one: marks strictly alternate within a round. -/
theorem reachable_mark_balance (s : GameState) (h : Reachable s) :
    countMarks s.board Player.x ≤ countMarks s.board Player.o + 1 ∧
    countMarks s.board Player.o ≤ countMarks s.board Player.x + 1 := by
  have hinv := reachable_inv s h
  cases hwB : s.waiting
  · obtain ⟨h1, h2⟩ := hinv.1 hwB
    cases hcp : s.currentPlayer <;> simp [hcp, Player.other] at h1 h2 <;> omega
  · obtain ⟨h1, h2⟩ := hinv.2 hwB
    cases hcp : s.currentPlayer <;> simp [hcp, Player.other] at h1 h2 <;> omega

/-- **C10 witness.** -/
theorem reachable_mark_balance_witness :
    countMarks initialState.board Player.x ≤
        countMarks initialState.board Player.o + 1 ∧
    countMarks initialState.board Player.o ≤
        countMarks initialState.board Player.x + 1 :=
  reachable_mark_balance initialState Reachable.init
